import Mathlib

/-!
Verification of the scriptbench core against its natural-language
specification.  The Python sources under `src/scriptbench` are shallowly
embedded below: strings are `List Char`/`String`, numbers used in
tolerance comparisons are `ℚ`, subprocess schedules are explicit event
traces, and the multi-turn agent loop is a recursive function over a
scripted list of model responses.
-/

/-! ## Python string primitives -/

/-- Python `str` whitespace for `strip`/`split`/`\s` (ASCII subset). -/
def isPySpace (c : Char) : Bool :=
  c = ' ' || c = '\t' || c = '\n' || c = '\r' || c = '\x0b' || c = '\x0c'

/-- Python `str.lstrip()` on a character list. -/
def lstripL (cs : List Char) : List Char := cs.dropWhile isPySpace

/-- Python `str.rstrip()` on a character list. -/
def rstripL (cs : List Char) : List Char := (cs.reverse.dropWhile isPySpace).reverse

/-- Python `str.strip()` on a character list. -/
def stripL (cs : List Char) : List Char := rstripL (lstripL cs)

/-- Python `str.strip()` on a `String`. -/
def strStrip (s : String) : String := ⟨stripL s.data⟩

/-- Python `str.rstrip()` on a `String`. -/
def strRstrip (s : String) : String := ⟨rstripL s.data⟩

/-- Python `str.splitlines(keepends=True)` restricted to `\n` terminators. -/
def slk : List Char → List (List Char)
  | [] => []
  | c :: cs =>
    if c = '\n' then ['\n'] :: slk cs
    else
      match slk cs with
      | [] => [[c]]
      | l :: ls => (c :: l) :: ls

/-- Python `str.split('\n')` (note: `"".split('\n') == [""]`). -/
def splitOnNl : List Char → List (List Char)
  | [] => [[]]
  | c :: cs =>
    if c = '\n' then [] :: splitOnNl cs
    else
      match splitOnNl cs with
      | [] => [[c]]
      | l :: ls => (c :: l) :: ls

/-- Python `str.split()` with no argument: split on whitespace runs,
dropping empty tokens. -/
def splitWs : List Char → List (List Char)
  | [] => []
  | c :: cs =>
    if isPySpace c then splitWs cs
    else
      match splitWs cs, (cs.head?.map isPySpace).getD false with
      | ws, true => [c] :: ws
      | [], _ => [[c]]
      | w :: ws, false => (c :: w) :: ws

/-- Python substring containment (`needle in hay`). -/
def containsSub (hay needle : List Char) : Bool :=
  match hay with
  | [] => needle.isEmpty
  | _ :: t => needle.isPrefixOf hay || containsSub t needle

/-- First success of `f` over a list, in order. -/
def firstSome (f : α → Option β) : List α → Option β
  | [] => none
  | a :: as =>
    match f a with
    | some b => some b
    | none => firstSome f as

/-- Backtracking search used for `re.search`: at each start position
(left to right) try the literal `lit` followed by the continuation `k`;
advance one character on failure. -/
def searchLit (lit : List Char) (k : List Char → Option α) : List Char → Option α
  | [] => if lit.isEmpty then k [] else none
  | c :: rest =>
    match (if lit.isPrefixOf (c :: rest) then k ((c :: rest).drop lit.length) else none) with
    | some r => some r
    | none => searchLit lit k rest

/-! ## Numerical evaluator (`scriptbench/evaluation/numerical.py`)

The answer pattern is `ANSWER=(\d+(?:\.\d+)?)`; the matched text is
converted with `float(...)` and compared with absolute tolerance `1e-9`.
Numbers are modelled as `ℚ`. -/

/-- Value of a digit run. -/
def digitsToNat (ds : List Char) : Nat :=
  ds.foldl (fun a c => 10 * a + (c.toNat - 48)) 0

/-- Rational value of a match of `\d+(?:\.\d+)?`, with integer digits
`ip` and fractional digits `fp` (`fp = []` when the optional group did
not participate). -/
def ratOfMatch (ip fp : List Char) : ℚ :=
  (digitsToNat ip : ℚ) + (digitsToNat fp : ℚ) / (10 : ℚ) ^ fp.length

/-- Match `\d+(?:\.\d+)?` at the current position: greedy digits, then an
optional dot-plus-digits group (skipped when no digit follows the dot). -/
def matchNumAt (cs : List Char) : Option (List Char × List Char) :=
  let ds := cs.takeWhile Char.isDigit
  if ds.isEmpty then none
  else
    match cs.drop ds.length with
    | '.' :: rest =>
      let fs := rest.takeWhile Char.isDigit
      if fs.isEmpty then some (ds, []) else some (ds, fs)
    | _ => some (ds, [])

/-- `re.search(r'ANSWER=(\d+(?:\.\d+)?)', output)`: the leftmost match of
the numerical answer pattern. -/
def findAnswerNum (cs : List Char) : Option (List Char × List Char) :=
  searchLit "ANSWER=".data matchNumAt cs

/-- `NumericalEvaluator.evaluate`, as a pass/fail Boolean: fail when the
task has no expected result, fail when the pattern is absent, otherwise
compare with absolute tolerance `1e-9`. -/
def numericalEvaluate (expected : Option ℚ) (output : String) : Bool :=
  match expected with
  | none => false
  | some e =>
    match findAnswerNum output.data with
    | none => false
    | some (ip, fp) => decide (|ratOfMatch ip fp - e| < 1 / 1000000000)

/-! ## Per-task timeout resolution (`task.py`, `evaluator.py`, `benchmark.py`)

The environment is modelled as the optional numeric value of the
`SCRIPT_TIMEOUT` variable. -/

/-- `int(os.getenv("SCRIPT_TIMEOUT", "60"))`. -/
def envScriptTimeout (env : Option Nat) : Nat := env.getD 60

/-- `task.script_timeout` (task.py line 61): the declared per-task value
with the environment-variable fallback. -/
def taskScriptTimeout (env : Option Nat) (declared : Option Nat) : Nat :=
  declared.getD (envScriptTimeout env)

/-- The state the `Evaluator` constructor builds (evaluator.py lines
16-24): its timeout comes from the environment only. -/
structure EvaluatorModel where
  timeout : Nat
deriving DecidableEq

/-- `Evaluator.__init__(self, logger=None)`: besides the logger it
accepts no further positional arguments; `extraPosArgs` models the
positional arguments after the logger, so any nonempty list is a
`TypeError` at call time. -/
def evaluatorInit (env : Option Nat) (extraPosArgs : List Nat) : Except String EvaluatorModel :=
  if extraPosArgs.isEmpty then .ok ⟨envScriptTimeout env⟩ else .error "TypeError"

/-- The construction performed by `ScriptBenchmark._execute_script`
(benchmark.py line 289): `Evaluator(self.logger, task.script_timeout)`,
which passes one positional argument beyond the logger. -/
def benchmarkCreateEvaluator (env : Option Nat) (declared : Option Nat) :
    Except String EvaluatorModel :=
  evaluatorInit env [taskScriptTimeout env declared]

/-- Claim C1: the per-task executor is said to be constructed with
`timeout = task.script_timeout`.  The task-side resolution (declared
value, `SCRIPT_TIMEOUT` fallback, default 60) does hold, but the
`Evaluator` the benchmark constructs accepts no timeout argument: the
benchmark call `Evaluator(self.logger, task.script_timeout)` is a
`TypeError`, and every `Evaluator` that can be constructed takes its
timeout from the environment variable alone, never from the task. -/
theorem claim1_timeout_never_from_task :
    benchmarkCreateEvaluator none (some 120) = .error "TypeError" ∧
    (∀ env : Option Nat, evaluatorInit env [] = .ok ⟨envScriptTimeout env⟩) ∧
    taskScriptTimeout none (some 120) = 120 ∧
    envScriptTimeout none = 60 := by
  refine ⟨rfl, fun env => rfl, rfl, rfl⟩

/-- The extracted value of the numerical pattern is never negative: the
pattern admits no sign. -/
lemma ratOfMatch_nonneg (ip fp : List Char) : 0 ≤ ratOfMatch ip fp := by
  unfold ratOfMatch
  positivity

/-- Claim C4: for every numerical task and output, the evaluator passes
exactly when the leftmost `ANSWER=<number>` match exists and its parsed
value is within absolute tolerance `1e-9` of the expected result; when
no match exists the evaluation fails.  The spec's two numerical seed
cases are included. -/
theorem claim4_numerical_eval (e : ℚ) (out : String) :
    (findAnswerNum out.data = none → numericalEvaluate (some e) out = false) ∧
    (∀ ip fp, findAnswerNum out.data = some (ip, fp) →
      (numericalEvaluate (some e) out = true ↔ |ratOfMatch ip fp - e| < 1 / 1000000000)) ∧
    numericalEvaluate (some 42) "garbage\nANSWER=42" = true ∧
    numericalEvaluate (some 10) "ANSWER=9.9999" = false := by
  refine ⟨fun h => ?_, fun ip fp h => ?_, ?_, ?_⟩
  · simp only [numericalEvaluate, h]
  · simp only [numericalEvaluate, h, decide_eq_true_eq]
  · have h : findAnswerNum "garbage\nANSWER=42".data = some ("42".data, []) := rfl
    have hd : digitsToNat "42".data = 42 := rfl
    have hd0 : digitsToNat ([] : List Char) = 0 := rfl
    simp only [numericalEvaluate, h, ratOfMatch, hd, hd0, decide_eq_true_eq]
    norm_num
  · have h : findAnswerNum "ANSWER=9.9999".data = some ("9".data, "9999".data) := rfl
    have hd1 : digitsToNat "9".data = 9 := rfl
    have hd2 : digitsToNat "9999".data = 9999 := rfl
    have hl : ("9999".data).length = 4 := rfl
    simp only [numericalEvaluate, h, ratOfMatch, hd1, hd2, hl]
    rw [decide_eq_false_iff_not]
    norm_num
    rw [abs_of_nonneg (by norm_num : (0 : ℚ) ≤ 1 / 10000)]
    norm_num

/-- Witness for C4 at concrete inputs. -/
theorem claim4_numerical_eval_witness :
    numericalEvaluate (some 42) "no answer here" = false ∧
    numericalEvaluate (some 42) "ANSWER=42" = true :=
  ⟨(claim4_numerical_eval 42 "no answer here").1 rfl,
   ((claim4_numerical_eval 42 "ANSWER=42").2.1 "42".data [] rfl).mpr
     (by
       have hd : digitsToNat "42".data = 42 := rfl
       have hd0 : digitsToNat ([] : List Char) = 0 := rfl
       rw [ratOfMatch, hd, hd0]
       norm_num)⟩

/-- Counterexample to claim C10: the expected result `-1e-10` is
negative, yet the output `ANSWER=0` passes, because the extracted `0`
differs from `-1e-10` by less than the `1e-9` tolerance. -/
theorem claim10_counterexample :
    numericalEvaluate (some (-(1 / 10000000000))) "ANSWER=0" = true := by
  have h : findAnswerNum "ANSWER=0".data = some ("0".data, []) := rfl
  have hd : digitsToNat "0".data = 0 := rfl
  have hd0 : digitsToNat ([] : List Char) = 0 := rfl
  simp only [numericalEvaluate, h, ratOfMatch, hd, hd0, decide_eq_true_eq]
  norm_num
  rw [abs_of_nonneg (by norm_num : (0 : ℚ) ≤ 1 / 10000000000)]
  norm_num

/-- Claim C10 amended: the extraction pattern yields only unsigned
values, so for a task whose expected result is at most `-1e-9` the
evaluation fails on every output; in particular `ANSWER=-5` produces no
match at all. -/
theorem claim10_unsigned_extraction (e : ℚ) (out : String)
    (he : e ≤ -(1 / 1000000000)) :
    numericalEvaluate (some e) out = false ∧
    findAnswerNum "ANSWER=-5".data = none := by
  refine ⟨?_, rfl⟩
  unfold numericalEvaluate
  cases h : findAnswerNum out.data with
  | none => rfl
  | some p =>
    obtain ⟨ip, fp⟩ := p
    refine decide_eq_false fun habs => ?_
    have h0 : (0 : ℚ) ≤ ratOfMatch ip fp := ratOfMatch_nonneg ip fp
    have h1 : ratOfMatch ip fp - e ≤ |ratOfMatch ip fp - e| := le_abs_self _
    linarith

/-- Witness for the amended C10 at a concrete negative expected value. -/
theorem claim10_unsigned_extraction_witness :
    numericalEvaluate (some (-1)) "ANSWER=-5" = false ∧
    findAnswerNum "ANSWER=-5".data = none :=
  claim10_unsigned_extraction (-1) "ANSWER=-5" (by norm_num)

/-! ## String-answer evaluator (`scriptbench/evaluation/string_answer.py`)

The primary pattern is `ANSWER=(["\']?)([^"\'\n\r]+?)\1(?:\s|$)` (an
optional quote, a lazy run of unquoted characters, the matching quote by
backreference, then whitespace or end); on failure the evaluator falls
back to `ANSWER=([^\s\n\r]+)`. -/

/-- Characters excluded from the group `[^"\'\n\r]`. -/
def isQuoteOrNl (c : Char) : Bool :=
  c = '"' || c = '\'' || c = '\n' || c = '\r'

/-- Lazy group match when group 1 captured the quote `q`: the shortest
nonempty run of allowed characters followed by `q` and then whitespace or
end of input. -/
def grp2Quoted (q : Char) : List Char → Option (List Char)
  | [] => none
  | c :: rest =>
    if isQuoteOrNl c then none
    else if rest.head? = some q &&
            ((rest.drop 1).isEmpty || ((rest.drop 1).head?.map isPySpace).getD false) then
      some [c]
    else (grp2Quoted q rest).map (c :: ·)

/-- Lazy group match when group 1 captured nothing (empty backreference):
the shortest nonempty run of allowed characters followed by whitespace or
end of input. -/
def grp2Bare : List Char → Option (List Char)
  | [] => none
  | c :: rest =>
    if isQuoteOrNl c then none
    else if rest.isEmpty || (rest.head?.map isPySpace).getD false then some [c]
    else (grp2Bare rest).map (c :: ·)

/-- Continuation of the primary pattern after the literal `ANSWER=`:
group 1 greedily tries to take a quote character and backtracks to the
empty capture if the quoted alternative cannot complete. -/
def matchQuotedAt (cs : List Char) : Option (List Char) :=
  match cs with
  | [] => none
  | c :: rest =>
    if c = '"' || c = '\'' then
      match grp2Quoted c rest with
      | some g => some g
      | none => grp2Bare (c :: rest)
    else grp2Bare (c :: rest)

/-- Continuation of the fallback pattern `ANSWER=([^\s\n\r]+)`: a greedy
nonempty run of non-whitespace characters. -/
def matchBareFb (cs : List Char) : Option (List Char) :=
  let g := cs.takeWhile (fun c => !isPySpace c)
  if g.isEmpty then none else some g

/-- The extraction performed by `StringAnswerEvaluator.evaluate`: the
primary pattern searched over the whole output, then the fallback
pattern. -/
def stringAnswerExtract (cs : List Char) : Option (List Char) :=
  match searchLit "ANSWER=".data matchQuotedAt cs with
  | some g => some g
  | none => searchLit "ANSWER=".data matchBareFb cs

/-- `StringAnswerEvaluator.evaluate` as a pass/fail Boolean: fail when
the task declares no expected string, fail when neither pattern matches,
otherwise strip the captured group and compare with the configured case
sensitivity. -/
def stringAnswerEvaluate (expected : Option String) (caseSensitive : Bool)
    (output : String) : Bool :=
  match expected with
  | none => false
  | some exp =>
    match stringAnswerExtract output.data with
    | none => false
    | some g =>
      let e := stripL g
      if caseSensitive then decide (e = exp.data)
      else decide (e.map Char.toLower = exp.data.map Char.toLower)

/-! ## Result dispatch (`scriptbench/evaluator.py`, `evaluate_result`)

The dispatcher handles only the result types `numerical`,
`classification_match` and `script_run`; every other result type leaves
`success` at its initial `False`.  The two file-based evaluators are
beyond the output-string model and enter as abstract Booleans. -/

/-- The task fields consulted by the evaluators and the dispatcher. -/
structure TaskModel where
  result_type : String
  expected_result : Option ℚ
  expected_string : Option String
  case_sensitive : Bool
deriving DecidableEq

/-- `Evaluator.evaluate_result` reduced to its `success` field.
`workDirGiven` models `work_dir is not None`; `classifyResult` and
`scriptRunResult` stand for the verdicts of the two file-based
evaluators. -/
def evaluateResultSuccess (t : TaskModel) (output : String) (workDirGiven : Bool)
    (classifyResult scriptRunResult : Bool) : Bool :=
  if t.result_type = "numerical" && t.expected_result.isSome then
    numericalEvaluate t.expected_result output
  else if t.result_type = "classification_match" && workDirGiven then
    classifyResult
  else if t.result_type = "script_run" && workDirGiven then
    scriptRunResult
  else false

/-- The string-answer seed task of the spec: expects `Crimson Empire`,
case-sensitive. -/
def crimsonTask : TaskModel :=
  { result_type := "string_answer"
    expected_result := none
    expected_string := some "Crimson Empire"
    case_sensitive := true }

/-- Claim C5: the `StringAnswerEvaluator` itself behaves exactly as the
claim describes — the quoted seed case passes, and case-insensitive
comparison works — but `Evaluator.evaluate_result` has no branch for the
`string_answer` result type, so evaluating a string-answer task through
the dispatcher yields `success = False` for every output: the seed task
can never pass. -/
theorem claim5_string_answer_not_dispatched :
    stringAnswerEvaluate crimsonTask.expected_string crimsonTask.case_sensitive
      "ANSWER=\"Crimson Empire\"" = true ∧
    stringAnswerEvaluate (some "crimson empire") false
      "ANSWER=\"Crimson Empire\"" = true ∧
    (∀ (output : String) (wd cl sr : Bool),
      evaluateResultSuccess crimsonTask output wd cl sr = false) := by
  exact ⟨by decide, by decide, fun output wd cl sr => rfl⟩

/-! ## Unix process executor (`scriptbench/execution/unix.py`)

`_stream_output` polls the child's pipes with a 100 ms granularity.  A
schedule is a list of poll events: `idle` (the 100 ms poll returned no
ready descriptor) or an output line on one of the two pipes.  The child
process is alive exactly while events remain; when the schedule is
exhausted the child has exited.  Each poll call takes (up to) 100 ms of
wall-clock time, so a schedule with `n` processed polls covers
`100 * n` milliseconds. -/

inductive PollEvent
  | idle
  | outLine (s : String)
  | errLine (s : String)
deriving DecidableEq

/-- Result of `_stream_output`: either the loop ended with the process
exited (`finished`) or the idle counter reached its bound with the
process still alive (`timedOut`, upon which the process is killed and
`subprocess.TimeoutExpired` is raised).  Both carry the lines captured
so far and the number of polls performed. -/
inductive StreamOutcome
  | finished (stdoutLines stderrLines : List String) (polls : Nat)
  | timedOut (stdoutLines stderrLines : List String) (polls : Nat)
deriving DecidableEq

/-- A line read from a pipe: skipped if empty, right-stripped, and
skipped again if blank (unix.py lines 101-114). -/
def pushLine (acc : List String) (s : String) : List String :=
  if s = "" then acc
  else
    let r := strRstrip s
    if r = "" then acc else acc ++ [r]

/-- The polling loop of `_stream_output`: while the process is alive and
the idle counter is below `maxT` (`timeout * 10`), poll; an idle poll
increments the counter, a ready poll resets it to zero. -/
def streamLoop (maxT : Nat) :
    List PollEvent → List String → List String → Nat → Nat → StreamOutcome
  | [], outs, errs, _, polls => .finished outs errs polls
  | e :: rest, outs, errs, counter, polls =>
    if counter < maxT then
      match e with
      | .idle => streamLoop maxT rest outs errs (counter + 1) (polls + 1)
      | .outLine s => streamLoop maxT rest (pushLine outs s) errs 0 (polls + 1)
      | .errLine s => streamLoop maxT rest outs (pushLine errs s) 0 (polls + 1)
    else .timedOut outs errs polls

/-- `UnixScriptExecutor._stream_output` with `max_timeouts =
self.timeout * 10`. -/
def streamOutput (timeout : Nat) (events : List PollEvent) : StreamOutcome :=
  streamLoop (timeout * 10) events [] [] 0 0

/-- The observable result of `UnixScriptExecutor.execute`: success flag,
joined stdout, joined stderr, and the metadata `error` field. -/
structure ExecResult where
  success : Bool
  stdout : String
  stderr : String
  errorMeta : Option String
deriving DecidableEq

/-- Python `str.splitlines()` without kept ends, used on the
`communicate` remainder. -/
def splitNoEnds (s : String) : List String :=
  (slk s.data).map fun l => ⟨if l.getLast? = some '\n' then l.dropLast else l⟩

/-- `UnixScriptExecutor.execute` over a schedule: on a streaming timeout
it returns `(False, "", "Script execution timed out")` with the timeout
metadata; otherwise it appends the `communicate` remainders, joins the
lines with newlines and reports the real exit code. -/
def executeUnix (timeout : Nat) (events : List PollEvent) (returncode : Int)
    (remainingOut remainingErr : String) : ExecResult :=
  match streamOutput timeout events with
  | .timedOut _ _ _ => ⟨false, "", "Script execution timed out", some "timeout"⟩
  | .finished outs errs _ =>
    let outs := outs ++ (if remainingOut = "" then [] else splitNoEnds remainingOut)
    let errs := errs ++ (if remainingErr = "" then [] else splitNoEnds remainingErr)
    ⟨decide (returncode = 0), String.intercalate "\n" outs, String.intercalate "\n" errs, none⟩

/-- A run of consecutive idle polls with the process still alive drives
the idle counter to its bound and times the execution out. -/
lemma streamLoop_idle_run (k : Nat) :
    ∀ (j p : Nat) (rest : List PollEvent), rest ≠ [] →
      streamLoop (j + k) (List.replicate k PollEvent.idle ++ rest) [] [] j p =
        .timedOut [] [] (p + k) := by
  induction k with
  | zero =>
    intro j p rest hrest
    cases rest with
    | nil => exact absurd rfl hrest
    | cons e rest =>
      simp only [List.replicate, List.nil_append, streamLoop, Nat.add_zero,
        lt_irrefl, if_false]
  | succ k ih =>
    intro j p rest hrest
    have hlt : j < j + (k + 1) := by omega
    rw [List.replicate_succ, List.cons_append]
    rw [show streamLoop (j + (k + 1))
        (PollEvent.idle :: (List.replicate k PollEvent.idle ++ rest)) [] [] j p =
        streamLoop (j + (k + 1)) (List.replicate k PollEvent.idle ++ rest) [] []
          (j + 1) (p + 1) by simp [streamLoop, hlt]]
    have := ih (j + 1) (p + 1) rest hrest
    rw [show j + 1 + k = j + (k + 1) by omega] at this
    rw [this]
    congr 1
    omega

/-- A child that produces a line on every poll never trips the idle
counter: the loop runs to process exit however long the schedule is. -/
lemma streamLoop_busy_run (n : Nat) :
    ∀ (m p : Nat) (outs : List String), 0 < m →
      streamLoop m (List.replicate n (PollEvent.outLine "x")) outs [] 0 p =
        .finished (outs ++ List.replicate n "x") [] (p + n) := by
  induction n with
  | zero =>
    intro m p outs _
    simp [streamLoop]
  | succ n ih =>
    intro m p outs hm
    simp only [List.replicate, streamLoop, hm, if_true]
    rw [show pushLine outs "x" = outs ++ ["x"] from rfl]
    rw [ih m (p + 1) (outs ++ ["x"]) hm]
    congr 1
    · simp [List.replicate_succ]
    · omega

/-- Counterexample to claim C2: with `timeout = 1` a child that emits a
line on every 100 ms poll for 200 polls is alive 20 s after spawn — far
past the 1 s budget and the 5 s grace — yet the executor never times it
out: the run is reported as a success with exit code 0. -/
theorem claim2_counterexample :
    streamOutput 1 (List.replicate 200 (PollEvent.outLine "x")) =
      .finished (List.replicate 200 "x") [] 200 ∧
    (executeUnix 1 (List.replicate 200 (PollEvent.outLine "x")) 0 "" "").success = true ∧
    (executeUnix 1 (List.replicate 200 (PollEvent.outLine "x")) 0 "" "").errorMeta = none ∧
    100 * 200 > (1 + 5) * 1000 := by
  have h : streamOutput 1 (List.replicate 200 (PollEvent.outLine "x")) =
      .finished (List.replicate 200 "x") [] 200 := by
    have := streamLoop_busy_run 200 (1 * 10) 0 [] (by norm_num)
    simpa [streamOutput] using this
  refine ⟨h, ?_, ?_, by norm_num⟩
  · simp only [executeUnix, h]
    rfl
  · simp only [executeUnix, h]

/-- Claim C2 amended: the streaming loop enforces an inactivity bound,
not a wall-clock deadline.  A child still alive after `timeout * 10`
consecutive output-less polls (`timeout` seconds of silence) is timed
out, while a child that emits a line on every poll is never timed out,
for schedules of unbounded total duration. -/
theorem claim2_idle_timeout (t n : Nat) (rest : List PollEvent)
    (ht : 0 < t) (hrest : rest ≠ []) :
    streamOutput t (List.replicate (t * 10) PollEvent.idle ++ rest) =
      .timedOut [] [] (t * 10) ∧
    streamOutput t (List.replicate n (PollEvent.outLine "x")) =
      .finished (List.replicate n "x") [] n := by
  constructor
  · have := streamLoop_idle_run (t * 10) 0 0 rest hrest
    simpa [streamOutput] using this
  · have := streamLoop_busy_run n (t * 10) 0 [] (by omega)
    simpa [streamOutput] using this

/-- Witness for the amended C2 at concrete inputs. -/
theorem claim2_idle_timeout_witness :
    streamOutput 1 (List.replicate (1 * 10) PollEvent.idle ++ [PollEvent.idle]) =
      .timedOut [] [] (1 * 10) ∧
    streamOutput 1 (List.replicate 3 (PollEvent.outLine "x")) =
      .finished (List.replicate 3 "x") [] 3 :=
  claim2_idle_timeout 1 3 [PollEvent.idle] (by norm_num) (by simp)

/-- Counterexample to claim C3: with `timeout = 1` the child prints
`hello` and then stays silent; the stream loop times out having captured
`["hello"]`, but `execute` returns an empty stdout and the fixed stderr
message — the captured output is discarded. -/
theorem claim3_counterexample :
    streamOutput 1 (PollEvent.outLine "hello" :: List.replicate 11 PollEvent.idle) =
      .timedOut ["hello"] [] 11 ∧
    executeUnix 1 (PollEvent.outLine "hello" :: List.replicate 11 PollEvent.idle) 0 "" "" =
      ⟨false, "", "Script execution timed out", some "timeout"⟩ := by
  constructor <;> rfl

/-- Claim C3 amended: whenever the stream loop times out, `execute`
returns `success = False` with empty stdout, the fixed stderr message
`Script execution timed out` and the timeout metadata — whatever output
was captured before termination is dropped. -/
theorem claim3_timeout_discards_output (timeout : Nat) (events : List PollEvent)
    (returncode : Int) (remainingOut remainingErr : String)
    (outs errs : List String) (p : Nat)
    (h : streamOutput timeout events = .timedOut outs errs p) :
    executeUnix timeout events returncode remainingOut remainingErr =
      ⟨false, "", "Script execution timed out", some "timeout"⟩ := by
  simp [executeUnix, h]

/-- Witness for the amended C3 at a concrete input. -/
theorem claim3_timeout_discards_output_witness :
    executeUnix 1 (PollEvent.outLine "hi" :: List.replicate 11 PollEvent.idle) 0 "" "" =
      ⟨false, "", "Script execution timed out", some "timeout"⟩ :=
  claim3_timeout_discards_output 1 _ 0 "" "" ["hi"] [] 11 rfl

/-! ## Fenced code-block extraction (`scriptbench/code_extraction.py`)

The block pattern is ```` ```(?:bash|sh|shell)?\s*\n(.*?)\n``` ```` with
`re.IGNORECASE | re.DOTALL` and `re.findall` semantics: leftmost
non-overlapping matches, alternatives in source order with backtracking,
greedy `\s*`, lazy block body. -/

/-- Candidate suffixes after matching `\s*\n`, greedy first: for every
admissible length of the whitespace run that is followed by a newline,
the remaining input after that newline. -/
def wsNlSuffixes (cs : List Char) : List (List Char) :=
  let run := cs.takeWhile isPySpace
  ((List.range run.length).reverse).filterMap fun j =>
    if cs.get? j = some '\n' then some (cs.drop (j + 1)) else none

/-- Tag comparison, optionally case-insensitive (tags are given in lower
case). -/
def tagMatches (ci : Bool) (tag cs : List Char) : Bool :=
  if ci then (cs.take tag.length).map Char.toLower == tag
  else (cs.take tag.length) == tag

/-- Candidate suffixes after the opening fence at the current position:
the literal ` ``` `, one of the tags (in alternation order, or no tag
when the tag group is optional), then `\s*\n`. -/
def fenceOpenCands (tags : List (List Char)) (allowUntagged ci : Bool)
    (cs : List Char) : List (List Char) :=
  if "```".data.isPrefixOf cs then
    let rest := cs.drop 3
    (tags.flatMap fun t =>
      if tagMatches ci t rest then wsNlSuffixes (rest.drop t.length) else []) ++
    (if allowUntagged then wsNlSuffixes rest else [])
  else []

/-- Lazy body match: the shortest body followed by the closing
`\n``` `; returns the body and the input after the closing fence. -/
def findClose : List Char → Option (List Char × List Char)
  | [] => none
  | c :: cs =>
    if c = '\n' && "```".data.isPrefixOf cs then some ([], cs.drop 3)
    else (findClose cs).map fun p => (c :: p.1, p.2)

/-- `re.findall` over the block pattern: scan left to right; at each
position try the opening-fence candidates in backtracking order and take
the first that also finds a closing fence; afterwards continue after the
match.  `fuel` bounds the recursion; every step strictly shrinks the
input, so `length + 1` suffices. -/
def scanFenced (tags : List (List Char)) (allowUntagged ci : Bool) :
    Nat → List Char → List (List Char)
  | 0, _ => []
  | _, [] => []
  | fuel + 1, c :: cs =>
    match firstSome findClose (fenceOpenCands tags allowUntagged ci (c :: cs)) with
    | some (content, rest) => content :: scanFenced tags allowUntagged ci fuel rest
    | none => scanFenced tags allowUntagged ci fuel cs

/-- The shell-or-untagged block scan shared by `extract_pip_packages`
and `extract_apt_packages` (tags `bash|sh|shell`, optional,
case-insensitive). -/
def shellBlocks (response : String) : List (List Char) :=
  scanFenced ["bash".data, "sh".data, "shell".data] true true
    (response.data.length + 1) response.data

/-- Terminator `(?:\s*$|&&|;)` of the package-list group. -/
def pkgTermin (cs : List Char) : Bool :=
  cs.all isPySpace || "&&".data.isPrefixOf cs || ";".data.isPrefixOf cs

/-- Lazy group `(.+?)` before the terminator: shortest nonempty run of
non-newline characters whose suffix satisfies the terminator. -/
def lazyGroupPlus : List Char → Option (List Char)
  | [] => none
  | c :: rest =>
    if c = '\n' then none
    else if pkgTermin rest then some [c]
    else (lazyGroupPlus rest).map (c :: ·)

/-- Lazy group `(.*?)` before the terminator: shortest, possibly empty,
run of non-newline characters whose suffix satisfies the terminator. -/
def lazyGroupStar (cs : List Char) : Option (List Char) :=
  if pkgTermin cs then some []
  else
    match cs with
    | [] => none
    | c :: rest =>
      if c = '\n' then none
      else (lazyGroupStar rest).map (c :: ·)

/-- Greedy `\s+` followed by the continuation `k`, with backtracking:
try the longest whitespace run first, down to a single character. -/
def afterWsPlus (k : List Char → Option α) (cs : List Char) : Option α :=
  let run := cs.takeWhile isPySpace
  firstSome (fun i => k (cs.drop i)) (((List.range run.length).reverse).map (· + 1))

/-- Lazy gap `.*?` (newline excluded) up to the literal `lit`, then the
continuation `k`, shortest gap first. -/
def lazyGapLit (lit : List Char) (k : List Char → Option α) : List Char → Option α
  | [] => if lit.isEmpty then k [] else none
  | c :: rest =>
    match (if lit.isPrefixOf (c :: rest) then k ((c :: rest).drop lit.length) else none) with
    | some r => some r
    | none => if c = '\n' then none else lazyGapLit lit k rest

/-- `re.search(r'pip install\s+(.+?)(?:\s*$|&&|;)', line)`: the captured
package text. -/
def searchPipCmd (line : List Char) : Option (List Char) :=
  searchLit "pip install".data (afterWsPlus lazyGroupPlus) line

/-- `re.search(r'apt-get.*?install.*?-y\s+(.*?)(?:\s*$|&&|;)', line)`:
the captured package text. -/
def searchAptCmd (line : List Char) : Option (List Char) :=
  searchLit "apt-get".data
    (lazyGapLit "install".data (lazyGapLit "-y".data (afterWsPlus lazyGroupStar))) line

/-- Token filter of `extract_pip_packages`: keep stripped tokens that
are nonempty, do not start with `-` and are not the literal `pip`. -/
def pipTokenFilter (toks : List (List Char)) : List (List Char) :=
  toks.filterMap fun p =>
    if !(stripL p).isEmpty && p.head? ≠ some '-' && p ≠ "pip".data then
      some (stripL p)
    else none

/-- Token filter of `extract_apt_packages`: keep stripped tokens that
are nonempty and do not start with `-`. -/
def aptTokenFilter (toks : List (List Char)) : List (List Char) :=
  toks.filterMap fun p =>
    if !(stripL p).isEmpty && p.head? ≠ some '-' then some (stripL p) else none

/-- Per-line package extraction for a stripped line already known to
contain `pip install`: skip pip self-upgrade lines, otherwise run the
pip command pattern and filter the whitespace-split tokens. -/
def pipLinePkgs (line : List Char) : List (List Char) :=
  if containsSub line "--upgrade pip".data ||
     containsSub line "pip install --upgrade pip".data then []
  else
    match searchPipCmd line with
    | some grp => pipTokenFilter (splitWs (stripL grp))
    | none => []

/-- Per-line package extraction for a stripped line already known to
contain `apt-get` and `install`. -/
def aptLinePkgs (line : List Char) : List (List Char) :=
  match searchAptCmd line with
  | some grp => aptTokenFilter (splitWs (stripL grp))
  | none => []

/-- `CodeExtractor.extract_pip_packages`. -/
def extract_pip_packages (response : String) : List String :=
  ((shellBlocks response).flatMap fun block =>
    (((splitOnNl block).filter fun l => containsSub l "pip install".data).map stripL).flatMap
      pipLinePkgs).map fun l => ⟨l⟩

/-- `CodeExtractor.extract_apt_packages`. -/
def extract_apt_packages (response : String) : List String :=
  ((shellBlocks response).flatMap fun block =>
    (((splitOnNl block).filter fun l =>
        containsSub l "apt-get".data && containsSub l "install".data).map stripL).flatMap
      aptLinePkgs).map fun l => ⟨l⟩

/-- Counterexample to claim C9: the extraction performs no union.  A
response whose shell block installs `numpy` twice yields the list
`["numpy", "numpy"]`, which contains duplicate entries. -/
theorem claim9_counterexample :
    extract_pip_packages "```bash\npip install numpy\npip install numpy\n```" =
      ["numpy", "numpy"] ∧
    ¬ (extract_pip_packages
        "```bash\npip install numpy\npip install numpy\n```").Nodup := by
  constructor
  · rfl
  · decide

/-- Claim C9 amended: the extraction scans the fenced blocks matched by
the block pattern (tagged `bash`/`sh`/`shell` or untagged), skips pip
self-upgrade commands, drops `-…` flags and the token `pip`, and
concatenates the remaining tokens in order of appearance without
removing duplicates; whenever the block pattern finds no block — in
particular on the empty response — both extractions return empty
lists. -/
theorem claim9_no_dedup (s : String) (h : shellBlocks s = []) :
    extract_pip_packages s = [] ∧
    extract_apt_packages s = [] ∧
    extract_pip_packages "```bash\npip install --upgrade pip\npip install scipy pandas -q\n```" =
      ["scipy", "pandas"] ∧
    extract_pip_packages "```bash\npip install numpy\npip install numpy\n```" =
      ["numpy", "numpy"] := by
  refine ⟨?_, ?_, rfl, rfl⟩ <;> simp [extract_pip_packages, extract_apt_packages, h]

/-- Witness for the amended C9 at the empty response. -/
theorem claim9_no_dedup_witness :
    extract_pip_packages "" = [] ∧ extract_apt_packages "" = [] :=
  ⟨(claim9_no_dedup "" rfl).1, (claim9_no_dedup "" rfl).2.1⟩

/-! ## Multi-turn agent loop (`mini_swe_agent/agents/default.py` and
`iterative.py`)

The model is a scripted list of responses (content plus the cost its
query adds, with `n_calls` incremented per query as in
`openai_model.py`); the sandbox environment is a function from the
executed command to its combined output, `none` standing for a command
timeout (`subprocess.TimeoutExpired`).  Rendered Jinja templates enter
as abstract string-valued functions. -/

/-- A transcript message. -/
structure Msg where
  role : String
  content : String
deriving DecidableEq

/-- The agent configuration fields the control flow consults. -/
structure AgentCfg where
  stepLimit : Nat
  costLimit : ℚ
  minimumIterations : Nat
  iterative : Bool

/-- One scripted model response. -/
structure ScriptedResponse where
  content : String
  cost : ℚ

/-- Rendered templates: the format-error message, the timeout message
(of the action), the action-observation message (of the output), and the
early-submission message (of the current step, the minimum and the
submitted payload). -/
structure Templates where
  fmtError : String
  timeoutMsg : String → String
  observation : String → String
  earlyMsg : Nat → Nat → String → String

/-- The mutable state of `DefaultAgent.run`: the transcript, the model
counters, and the iterative variant's step index. -/
structure LoopState where
  messages : List Msg
  nCalls : Nat
  cost : ℚ
  stepIndex : Nat

/-- How a run of the loop terminated. -/
inductive RunStatus
  | submitted
  | limitsExceeded
  | modelExhausted
deriving DecidableEq

/-- The observable outcome of a run: the final transcript, the
termination status and the submission payload. -/
structure RunResult where
  messages : List Msg
  status : RunStatus
  payload : String
deriving DecidableEq

/-- `re.findall(r"```bash\s*\n(.*?)\n```", content, re.DOTALL)` of
`DefaultAgent.parse_action`: tag mandatory and case-sensitive. -/
def bashActionsStr (content : String) : List String :=
  (scanFenced ["bash".data] false false (content.data.length + 1) content.data).map
    fun l => ⟨l⟩

/-- The three completion sentinels, upper case. -/
def sentinelsL : List (List Char) :=
  ["MINI_SWE_AGENT_FINAL_OUTPUT".data, "COMPLETE_TASK_AND_SUBMIT_FINAL_OUTPUT".data,
   "END".data]

/-- The sentinel test applied to a kept-ends line:
`line.strip().upper() in {...}`. -/
def sentinelHead (l : List Char) : Bool :=
  sentinelsL.contains ((stripL l).map Char.toUpper)

/-- Head-line inspection shared by the code-side and spec-side
definitions: `none` when the line list is empty or its first line is not
a sentinel, otherwise the concatenation of the remaining kept-ends
lines. -/
def headSentinel : List (List Char) → Option String
  | [] => none
  | l0 :: rest => if sentinelHead l0 then some ⟨rest.flatten⟩ else none

/-- `DefaultAgent._check_finished`:
`output.lstrip().splitlines(keepends=True)`, sentinel test on line 0,
payload `"".join(lines[1:])`. -/
def checkFinishedDefault (out : String) : Option String :=
  headSentinel (slk (lstripL out.data))

/-- The sentinel rule in the words of the specification: take the first
non-blank line of the output; if, trimmed and upper-cased, it is one of
the sentinels, the payload is the remainder of the output after that
line. -/
def specSentinelPayload (out : String) : Option String :=
  headSentinel ((slk out.data).dropWhile fun l => (stripL l).isEmpty)

/-- Verdict of `_check_finished` in either variant. -/
inductive FinishAct
  | submit (payload : String)
  | early (payload : String)
  | cont
deriving DecidableEq

/-- `IterativeAgent._check_finished`: as the default, but a sentinel
seen while the step index is below the minimum raises
`MinimumIterationsNotReached` instead of `Submitted`. -/
def checkFinishedIter (minimum stepIdx : Nat) (out : String) : FinishAct :=
  match slk (lstripL out.data) with
  | [] => .cont
  | l0 :: rest =>
    if sentinelHead l0 then
      if stepIdx < minimum then .early ⟨rest.flatten⟩ else .submit ⟨rest.flatten⟩
    else .cont

/-- The variant-dependent finish check applied to a command output. -/
def finishAction (cfg : AgentCfg) (stepIdx : Nat) (out : String) : FinishAct :=
  if cfg.iterative then checkFinishedIter cfg.minimumIterations stepIdx out
  else
    match checkFinishedDefault out with
    | some p => .submit p
    | none => .cont

/-- The step-index bump performed at the top of `IterativeAgent.step`
(the default variant leaves the state unchanged). -/
def stepBump (cfg : AgentCfg) (st : LoopState) : LoopState :=
  if cfg.iterative then { st with stepIndex := st.stepIndex + 1 } else st

/-- The budget check of `DefaultAgent.query`:
`0 < step_limit <= n_calls or 0 < cost_limit <= cost`. -/
def limitsHit (cfg : AgentCfg) (st : LoopState) : Bool :=
  (decide (0 < cfg.stepLimit) && decide (cfg.stepLimit ≤ st.nCalls)) ||
  (decide (0 < cfg.costLimit) && decide (cfg.costLimit ≤ st.cost))

/-- One-per-iteration body of `DefaultAgent.run`/`IterativeAgent.run`:
the iterative variant first increments its step index; the budget check
runs before the model query; a query consumes the next scripted
response, increments `n_calls`, adds its cost and appends the assistant
turn; then the single `bash` block is parsed (a format error appends the
correction user turn and continues), the command is executed (a timeout
appends the timeout user turn and continues), and the output is checked
for a sentinel.  `LimitsExceeded`/`Submitted` append the user turn
`str(exc)` and terminate; an exhausted script ends the run with
`modelExhausted`. -/
def agentLoop (cfg : AgentCfg) (tpl : Templates) (env : String → Option String) :
    List ScriptedResponse → LoopState → RunResult
  | [], st =>
    let st1 := stepBump cfg st
    if limitsHit cfg st1 then ⟨st1.messages ++ [⟨"user", ""⟩], .limitsExceeded, ""⟩
    else ⟨st1.messages, .modelExhausted, ""⟩
  | r :: rest, st =>
    let st1 := stepBump cfg st
    if limitsHit cfg st1 then ⟨st1.messages ++ [⟨"user", ""⟩], .limitsExceeded, ""⟩
    else
      let st2 : LoopState :=
        { st1 with nCalls := st1.nCalls + 1, cost := st1.cost + r.cost,
                   messages := st1.messages ++ [⟨"assistant", r.content⟩] }
      match bashActionsStr r.content with
      | [a] =>
        let action := strStrip a
        match env action with
        | none =>
          agentLoop cfg tpl env rest
            { st2 with messages := st2.messages ++ [⟨"user", tpl.timeoutMsg action⟩] }
        | some out =>
          match finishAction cfg st2.stepIndex out with
          | .submit p => ⟨st2.messages ++ [⟨"user", p⟩], .submitted, p⟩
          | .early p =>
            agentLoop cfg tpl env rest
              { st2 with messages := st2.messages ++
                  [⟨"user", tpl.earlyMsg st2.stepIndex cfg.minimumIterations p⟩] }
          | .cont =>
            agentLoop cfg tpl env rest
              { st2 with messages := st2.messages ++ [⟨"user", tpl.observation out⟩] }
      | _ =>
        agentLoop cfg tpl env rest
          { st2 with messages := st2.messages ++ [⟨"user", tpl.fmtError⟩] }

/-- `run(task)`: seed the transcript with the rendered system and
instance messages, then loop. -/
def runAgent (cfg : AgentCfg) (tpl : Templates) (env : String → Option String)
    (sysMsg instMsg : String) (responses : List ScriptedResponse) : RunResult :=
  agentLoop cfg tpl env responses ⟨[⟨"system", sysMsg⟩, ⟨"user", instMsg⟩], 0, 0, 0⟩

/-- Stripping ignores a leading whitespace character. -/
lemma stripL_cons_of_space {c : Char} (l : List Char) (h : isPySpace c = true) :
    stripL (c :: l) = stripL l := by
  simp [stripL, lstripL, List.dropWhile_cons, h]

/-- A line starting with a non-whitespace character does not strip to
the empty list. -/
lemma stripL_cons_ne_nil {c : Char} (l : List Char) (h : isPySpace c = false) :
    (stripL (c :: l)).isEmpty = false := by
  have h1 : lstripL (c :: l) = c :: l := by
    simp [lstripL, List.dropWhile_cons, h]
  rw [stripL, h1]
  cases h2 : rstripL (c :: l) with
  | cons a t => rfl
  | nil =>
    exfalso
    rw [rstripL, List.reverse_eq_nil_iff, List.dropWhile_eq_nil_iff] at h2
    have := h2 c (by simp)
    rw [h] at this
    exact Bool.false_ne_true this

/-- Key equivalence for the sentinel check: inspecting line 0 of the
left-stripped output is the same as inspecting the first non-blank line
of the raw output, with the same payload. -/
lemma headSentinel_lstrip (cs : List Char) :
    headSentinel (slk (lstripL cs)) =
      headSentinel ((slk cs).dropWhile fun l => (stripL l).isEmpty) := by
  induction cs with
  | nil => rfl
  | cons c cs ih =>
    cases hws : isPySpace c with
    | true =>
      have h1 : lstripL (c :: cs) = lstripL cs := by
        simp [lstripL, List.dropWhile_cons, hws]
      rw [h1, ih]
      by_cases hnl : c = '\n'
      · subst hnl
        have h2 : slk ('\n' :: cs) = ['\n'] :: slk cs := by simp [slk]
        rw [h2, List.dropWhile_cons]
        have h3 : (stripL ['\n']).isEmpty = true := by decide
        simp [h3]
      · cases h4 : slk cs with
        | nil =>
          have h2 : slk (c :: cs) = [[c]] := by simp [slk, hnl, h4]
          rw [h2]
          have h5 : (stripL [c]).isEmpty = true := by
            rw [stripL_cons_of_space [] hws]; rfl
          simp [List.dropWhile_cons, h5]
        | cons l ls =>
          have h2 : slk (c :: cs) = (c :: l) :: ls := by simp [slk, hnl, h4]
          rw [h2]
          have hB : stripL (c :: l) = stripL l := stripL_cons_of_space l hws
          rw [List.dropWhile_cons, List.dropWhile_cons, hB]
          cases hbl : (stripL l).isEmpty with
          | true => simp [hbl]
          | false => simp [hbl, headSentinel, sentinelHead, hB]
    | false =>
      have hnl : ¬ c = '\n' := by
        intro hc; subst hc
        simp [isPySpace] at hws
      have h1 : lstripL (c :: cs) = c :: cs := by
        simp [lstripL, List.dropWhile_cons, hws]
      rw [h1]
      cases h4 : slk cs with
      | nil =>
        have h2 : slk (c :: cs) = [[c]] := by simp [slk, hnl, h4]
        rw [h2]
        have h5 : (stripL [c]).isEmpty = false := stripL_cons_ne_nil [] hws
        simp [List.dropWhile_cons, h5]
      | cons l ls =>
        have h2 : slk (c :: cs) = (c :: l) :: ls := by simp [slk, hnl, h4]
        rw [h2]
        have h5 : (stripL (c :: l)).isEmpty = false := stripL_cons_ne_nil l hws
        simp [List.dropWhile_cons, h5]

/-- The code-side sentinel check agrees with the spec-side one on every
output. -/
lemma checkFinishedDefault_eq_spec (out : String) :
    checkFinishedDefault out = specSentinelPayload out :=
  headSentinel_lstrip out.data

/-- A `submit` verdict in either variant implies the default sentinel
check succeeds with the same payload. -/
lemma finishAction_submit {cfg : AgentCfg} {i : Nat} {out p : String}
    (h : finishAction cfg i out = .submit p) :
    checkFinishedDefault out = some p := by
  unfold finishAction at h
  cases hit : cfg.iterative with
  | false =>
    rw [hit] at h
    simp only [Bool.false_eq_true, if_false] at h
    cases hc : checkFinishedDefault out with
    | none => rw [hc] at h; exact absurd h (by simp)
    | some q => rw [hc] at h; simp at h; rw [h]
  | true =>
    rw [hit] at h
    simp only [if_true] at h
    unfold checkFinishedIter at h
    unfold checkFinishedDefault
    cases hs : slk (lstripL out.data) with
    | nil => rw [hs] at h; exact absurd h (by simp)
    | cons l0 rest =>
      rw [hs] at h
      have h2 : (if sentinelHead l0 = true then
          if i < cfg.minimumIterations then FinishAct.early ⟨rest.flatten⟩
          else FinishAct.submit ⟨rest.flatten⟩
        else FinishAct.cont) = FinishAct.submit p := h
      by_cases hsh : sentinelHead l0 = true
      · rw [if_pos hsh] at h2
        by_cases hlt : i < cfg.minimumIterations
        · rw [if_pos hlt] at h2; exact FinishAct.noConfusion h2
        · rw [if_neg hlt] at h2
          simp only [FinishAct.submit.injEq] at h2
          simp [headSentinel, hsh, h2]
      · rw [if_neg hsh] at h2; exact FinishAct.noConfusion h2

/-- When the default sentinel check succeeds, the iterative check
yields `early` below the minimum and `submit` at or above it, with the
same payload. -/
lemma checkFinishedIter_of_default {o p : String} (m i : Nat)
    (h : checkFinishedDefault o = some p) :
    checkFinishedIter m i o =
      if i < m then FinishAct.early p else FinishAct.submit p := by
  unfold checkFinishedDefault at h
  unfold checkFinishedIter
  cases hs : slk (lstripL o.data) with
  | nil => rw [hs] at h; exact Option.noConfusion h
  | cons l0 rest =>
    rw [hs] at h
    have h2 : (if sentinelHead l0 = true then some (⟨rest.flatten⟩ : String)
        else none) = some p := h
    show (if sentinelHead l0 = true then
        if i < m then FinishAct.early ⟨rest.flatten⟩ else FinishAct.submit ⟨rest.flatten⟩
      else FinishAct.cont) =
      if i < m then FinishAct.early p else FinishAct.submit p
    by_cases hsh : sentinelHead l0 = true
    · rw [if_pos hsh] at h2
      simp only [Option.some.injEq] at h2
      rw [if_pos hsh, h2]
    · rw [if_neg hsh] at h2; exact Option.noConfusion h2

/-- If no command output ever carries a sentinel first line, the loop
never terminates with `submitted`, whatever the script, limits and
variant. -/
lemma agentLoop_no_sentinel_no_submit (cfg : AgentCfg) (tpl : Templates)
    (env : String → Option String)
    (henv : ∀ a o, env a = some o → specSentinelPayload o = none) :
    ∀ (rs : List ScriptedResponse) (st : LoopState),
      (agentLoop cfg tpl env rs st).status ≠ .submitted := by
  intro rs
  induction rs with
  | nil =>
    intro st
    simp only [agentLoop]
    split <;> simp
  | cons r rest ih =>
    intro st
    simp only [agentLoop]
    split
    · simp
    · split
      · split
        · exact ih _
        · next o hE =>
          split
          · next p hFin =>
            exfalso
            have hc : checkFinishedDefault o = some p := finishAction_submit hFin
            rw [checkFinishedDefault_eq_spec] at hc
            rw [henv _ _ hE] at hc
            exact Option.noConfusion hc
          · exact ih _
          · exact ih _
      · exact ih _

/-- Claim C6: (a) the sentinel rule of `_check_finished` coincides with
the specification's rule — the first non-blank line, trimmed and
compared case-insensitively against the three sentinels, with the
payload being the remainder of the output; (b) in the default variant a
parsed command whose output carries a sentinel terminates the loop at
once with status `submitted` and that payload as both the final user
turn and the run payload; (c) in the iterative variant, a sentinel seen
while the step counter is still below `minimum_iterations` instead
appends the templated early-submission correction as a user turn and
the loop continues; (d) in the iterative variant at or above the
minimum, the sentinel terminates the loop with status `submitted` and
the payload; (e) outputs that never carry a sentinel first line never
terminate the loop with `submitted`, in either variant. -/
theorem claim6_sentinel_submission :
    (∀ out : String, checkFinishedDefault out = specSentinelPayload out) ∧
    (∀ (cfg : AgentCfg) (tpl : Templates) (env : String → Option String)
        (r : ScriptedResponse) (rest : List ScriptedResponse) (st : LoopState)
        (a o p : String),
      cfg.iterative = false →
      limitsHit cfg st = false →
      bashActionsStr r.content = [a] →
      env (strStrip a) = some o →
      specSentinelPayload o = some p →
      agentLoop cfg tpl env (r :: rest) st =
        ⟨st.messages ++ [⟨"assistant", r.content⟩, ⟨"user", p⟩], .submitted, p⟩) ∧
    (∀ (cfg : AgentCfg) (tpl : Templates) (env : String → Option String)
        (r : ScriptedResponse) (rest : List ScriptedResponse) (st : LoopState)
        (a o p : String),
      cfg.iterative = true →
      limitsHit cfg st = false →
      bashActionsStr r.content = [a] →
      env (strStrip a) = some o →
      specSentinelPayload o = some p →
      st.stepIndex + 1 < cfg.minimumIterations →
      agentLoop cfg tpl env (r :: rest) st =
        agentLoop cfg tpl env rest
          { messages := st.messages ++ [⟨"assistant", r.content⟩,
              ⟨"user", tpl.earlyMsg (st.stepIndex + 1) cfg.minimumIterations p⟩],
            nCalls := st.nCalls + 1, cost := st.cost + r.cost,
            stepIndex := st.stepIndex + 1 }) ∧
    (∀ (cfg : AgentCfg) (tpl : Templates) (env : String → Option String)
        (r : ScriptedResponse) (rest : List ScriptedResponse) (st : LoopState)
        (a o p : String),
      cfg.iterative = true →
      limitsHit cfg st = false →
      bashActionsStr r.content = [a] →
      env (strStrip a) = some o →
      specSentinelPayload o = some p →
      cfg.minimumIterations ≤ st.stepIndex + 1 →
      agentLoop cfg tpl env (r :: rest) st =
        ⟨st.messages ++ [⟨"assistant", r.content⟩, ⟨"user", p⟩], .submitted, p⟩) ∧
    (∀ (cfg : AgentCfg) (tpl : Templates) (env : String → Option String)
        (rs : List ScriptedResponse) (st : LoopState),
      (∀ a o, env a = some o → specSentinelPayload o = none) →
      (agentLoop cfg tpl env rs st).status ≠ .submitted) := by
  refine ⟨checkFinishedDefault_eq_spec, ?_, ?_, ?_, ?_⟩
  · intro cfg tpl env r rest st a o p hIter hLim hA hE hSpec
    have hchk : checkFinishedDefault o = some p := by
      rw [checkFinishedDefault_eq_spec]; exact hSpec
    have hFin : finishAction cfg st.stepIndex o = .submit p := by
      unfold finishAction
      rw [hIter]
      simp only [Bool.false_eq_true, if_false, hchk]
    have hBump : stepBump cfg st = st := by simp [stepBump, hIter]
    simp only [agentLoop, hBump, hLim, Bool.false_eq_true, if_false, hA, hE, hFin,
      List.append_assoc, List.cons_append, List.nil_append]
  · intro cfg tpl env r rest st a o p hIter hLim hA hE hSpec hLt
    have hchk : checkFinishedDefault o = some p := by
      rw [checkFinishedDefault_eq_spec]; exact hSpec
    have hFin : finishAction cfg (st.stepIndex + 1) o = .early p := by
      unfold finishAction
      rw [hIter, if_pos rfl,
        checkFinishedIter_of_default cfg.minimumIterations (st.stepIndex + 1) hchk,
        if_pos hLt]
    have hBump : stepBump cfg st = { st with stepIndex := st.stepIndex + 1 } := by
      simp [stepBump, hIter]
    have hLim2 : limitsHit cfg { st with stepIndex := st.stepIndex + 1 } = false := hLim
    simp only [agentLoop, hBump, hLim2, Bool.false_eq_true, if_false, hA, hE, hFin,
      List.append_assoc, List.cons_append, List.nil_append]
  · intro cfg tpl env r rest st a o p hIter hLim hA hE hSpec hGe
    have hchk : checkFinishedDefault o = some p := by
      rw [checkFinishedDefault_eq_spec]; exact hSpec
    have hFin : finishAction cfg (st.stepIndex + 1) o = .submit p := by
      unfold finishAction
      rw [hIter, if_pos rfl,
        checkFinishedIter_of_default cfg.minimumIterations (st.stepIndex + 1) hchk,
        if_neg (not_lt.mpr hGe)]
    have hBump : stepBump cfg st = { st with stepIndex := st.stepIndex + 1 } := by
      simp [stepBump, hIter]
    have hLim2 : limitsHit cfg { st with stepIndex := st.stepIndex + 1 } = false := hLim
    simp only [agentLoop, hBump, hLim2, Bool.false_eq_true, if_false, hA, hE, hFin,
      List.append_assoc, List.cons_append, List.nil_append]
  · intro cfg tpl env rs st henv
    exact agentLoop_no_sentinel_no_submit cfg tpl env henv rs st

/-- Witness for C6 at concrete scripted runs: the default agent submits
as soon as a command prints `END` on its first line, with the rest of
the output as payload; the iterative agent below its minimum instead
appends the early-submission message and continues; the iterative agent
at its minimum submits. -/
theorem claim6_sentinel_submission_witness :
    agentLoop ⟨0, 0, 0, false⟩
      ⟨"FMT", fun _ => "TMO", fun o => o, fun _ _ _ => "EARLY"⟩
      (fun _ => some "END\npayload.py")
      [⟨"```bash\ncat go\n```", 0⟩]
      ⟨[⟨"system", "S"⟩, ⟨"user", "I"⟩], 0, 0, 0⟩ =
      ⟨[⟨"system", "S"⟩, ⟨"user", "I"⟩, ⟨"assistant", "```bash\ncat go\n```"⟩,
        ⟨"user", "payload.py"⟩], .submitted, "payload.py"⟩ ∧
    agentLoop ⟨0, 0, 3, true⟩
      ⟨"FMT", fun _ => "TMO", fun o => o, fun _ _ _ => "EARLY"⟩
      (fun _ => some "END\npayload.py")
      [⟨"```bash\ncat go\n```", 0⟩]
      ⟨[⟨"system", "S"⟩, ⟨"user", "I"⟩], 0, 0, 0⟩ =
      agentLoop ⟨0, 0, 3, true⟩
        ⟨"FMT", fun _ => "TMO", fun o => o, fun _ _ _ => "EARLY"⟩
        (fun _ => some "END\npayload.py") []
        { messages := [⟨"system", "S"⟩, ⟨"user", "I"⟩] ++
            [⟨"assistant", "```bash\ncat go\n```"⟩, ⟨"user", "EARLY"⟩],
          nCalls := 0 + 1, cost := 0 + 0, stepIndex := 0 + 1 } ∧
    agentLoop ⟨0, 0, 1, true⟩
      ⟨"FMT", fun _ => "TMO", fun o => o, fun _ _ _ => "EARLY"⟩
      (fun _ => some "END\npayload.py")
      [⟨"```bash\ncat go\n```", 0⟩]
      ⟨[⟨"system", "S"⟩, ⟨"user", "I"⟩], 0, 0, 0⟩ =
      ⟨[⟨"system", "S"⟩, ⟨"user", "I"⟩] ++
        [⟨"assistant", "```bash\ncat go\n```"⟩, ⟨"user", "payload.py"⟩],
        .submitted, "payload.py"⟩ :=
  ⟨claim6_sentinel_submission.2.1 ⟨0, 0, 0, false⟩
    ⟨"FMT", fun _ => "TMO", fun o => o, fun _ _ _ => "EARLY"⟩
    (fun _ => some "END\npayload.py")
    ⟨"```bash\ncat go\n```", 0⟩ [] ⟨[⟨"system", "S"⟩, ⟨"user", "I"⟩], 0, 0, 0⟩
    "cat go" "END\npayload.py" "payload.py" rfl rfl rfl rfl rfl,
   claim6_sentinel_submission.2.2.1 ⟨0, 0, 3, true⟩
    ⟨"FMT", fun _ => "TMO", fun o => o, fun _ _ _ => "EARLY"⟩
    (fun _ => some "END\npayload.py")
    ⟨"```bash\ncat go\n```", 0⟩ [] ⟨[⟨"system", "S"⟩, ⟨"user", "I"⟩], 0, 0, 0⟩
    "cat go" "END\npayload.py" "payload.py" rfl rfl rfl rfl rfl (by decide),
   claim6_sentinel_submission.2.2.2.1 ⟨0, 0, 1, true⟩
    ⟨"FMT", fun _ => "TMO", fun o => o, fun _ _ _ => "EARLY"⟩
    (fun _ => some "END\npayload.py")
    ⟨"```bash\ncat go\n```", 0⟩ [] ⟨[⟨"system", "S"⟩, ⟨"user", "I"⟩], 0, 0, 0⟩
    "cat go" "END\npayload.py" "payload.py" rfl rfl rfl rfl rfl (by decide)⟩

/-- Concrete configuration for exercising the step budget:
`step_limit = 1`, no cost limit, default variant. -/
def cfg7 : AgentCfg := ⟨1, 0, 0, false⟩

/-- Concrete rendered templates. -/
def tpl7 : Templates :=
  ⟨"FMT", fun _ => "TMO", fun o => String.append "Obs " o, fun _ _ _ => "EARLY"⟩

/-- Concrete sandbox: every command prints `hello`. -/
def env7 : String → Option String := fun _ => some "hello"

/-- Counterexample to claim C7: with `step_limit = 1`, a first response
with no bash block (a format error) is followed by a well-formed one.
The format-error turn increments `n_calls`, the counter checked against
`step_limit`, so the next iteration terminates with limits-exceeded: the
second response is never queried and no command ever runs.  Under the
claim the format error would not consume the budget and the second
response would still execute. -/
theorem claim7_counterexample :
    runAgent cfg7 tpl7 env7 "SYS" "INST"
        [⟨"no action", 0⟩, ⟨"```bash\nls\n```", 0⟩] =
      ⟨[⟨"system", "SYS"⟩, ⟨"user", "INST"⟩, ⟨"assistant", "no action"⟩,
        ⟨"user", "FMT"⟩, ⟨"user", ""⟩], .limitsExceeded, ""⟩ := by
  rfl

/-- Claim C7 amended: an assistant message without exactly one bash
block appends the templated correction as a user turn and the loop
continues — but the query that produced it has incremented `n_calls`,
the counter compared against `step_limit`, so format-error turns do
consume the action budget. -/
theorem claim7_format_error_consumes_budget (cfg : AgentCfg) (tpl : Templates)
    (env : String → Option String) (r : ScriptedResponse)
    (rest : List ScriptedResponse) (st : LoopState)
    (hIter : cfg.iterative = false)
    (hLim : limitsHit cfg st = false)
    (hFmt : ∀ a, bashActionsStr r.content ≠ [a]) :
    agentLoop cfg tpl env (r :: rest) st =
      agentLoop cfg tpl env rest
        { messages := st.messages ++ [⟨"assistant", r.content⟩, ⟨"user", tpl.fmtError⟩],
          nCalls := st.nCalls + 1, cost := st.cost + r.cost,
          stepIndex := st.stepIndex } := by
  have hBump : stepBump cfg st = st := by simp [stepBump, hIter]
  simp only [agentLoop, hBump, hLim, Bool.false_eq_true, if_false]
  cases hA : bashActionsStr r.content with
  | nil => simp [List.append_assoc]
  | cons a t =>
    cases t with
    | nil => exact absurd hA (hFmt a)
    | cons b t2 => simp [List.append_assoc]

/-- Witness for the amended C7 at a concrete input. -/
theorem claim7_format_error_consumes_budget_witness :
    agentLoop cfg7 tpl7 env7 [⟨"no action", 0⟩] ⟨[], 0, 0, 0⟩ =
      agentLoop cfg7 tpl7 env7 []
        { messages := [] ++ [⟨"assistant", "no action"⟩, ⟨"user", tpl7.fmtError⟩],
          nCalls := 0 + 1, cost := 0 + (0 : ℚ), stepIndex := 0 } :=
  claim7_format_error_consumes_budget cfg7 tpl7 env7 ⟨"no action", 0⟩ [] ⟨[], 0, 0, 0⟩
    rfl rfl
    (fun a h => by
      rw [show bashActionsStr "no action" = [] from rfl] at h
      exact List.noConfusion h)

/-! ## Transcript protocol order -/

/-- Roles of a transcript. -/
def rolesOfL (ms : List Msg) : List String := ms.map Msg.role

/-- Strictly alternating assistant/user pairs. -/
def altAU : List String → Bool
  | [] => true
  | [_] => false
  | a :: u :: rs => a == "assistant" && (u == "user" && altAU rs)

/-- Alternating assistant/user pairs followed by one extra user turn. -/
def altAULastUser : List String → Bool
  | [] => false
  | [u] => u == "user"
  | a :: u :: rs => a == "assistant" && (u == "user" && altAULastUser rs)

/-- Body shape after the prelude: alternating pairs, possibly with one
trailing user turn. -/
def pairsMaybeUser (rs : List String) : Bool := altAU rs || altAULastUser rs

/-- The protocol order asserted by the claim: a system turn, an instance
user turn, then strictly alternating assistant/user pairs. -/
def strictProtocol (ms : List Msg) : Bool :=
  match rolesOfL ms with
  | r0 :: r1 :: rs => r0 == "system" && (r1 == "user" && altAU rs)
  | _ => false

/-- The protocol order the loop actually guarantees: as above, except
that one final user turn may close the transcript without a preceding
assistant turn. -/
def relaxedProtocol (ms : List Msg) : Bool :=
  match rolesOfL ms with
  | r0 :: r1 :: rs => r0 == "system" && (r1 == "user" && pairsMaybeUser rs)
  | _ => false

/-- Prepending one assistant/user pair preserves the body shape. -/
lemma pairsMaybeUser_pair (xs : List String) :
    pairsMaybeUser ("assistant" :: "user" :: xs) = pairsMaybeUser xs := by
  simp [pairsMaybeUser, altAU, altAULastUser]

/-- The step bump does not touch the transcript. -/
lemma stepBump_messages (cfg : AgentCfg) (st : LoopState) :
    (stepBump cfg st).messages = st.messages := by
  unfold stepBump
  split <;> rfl

/-- Whatever the loop does, it only appends messages, and the appended
block is a sequence of assistant/user pairs, possibly closed by one
trailing user turn. -/
lemma agentLoop_delta (cfg : AgentCfg) (tpl : Templates)
    (env : String → Option String) :
    ∀ (rs : List ScriptedResponse) (st : LoopState),
      ∃ δ, (agentLoop cfg tpl env rs st).messages = st.messages ++ δ ∧
        pairsMaybeUser (rolesOfL δ) = true := by
  intro rs
  induction rs with
  | nil =>
    intro st
    simp only [agentLoop]
    split
    · exact ⟨[⟨"user", ""⟩], by rw [stepBump_messages], by decide⟩
    · exact ⟨[], by rw [stepBump_messages, List.append_nil], by decide⟩
  | cons r rest ih =>
    intro st
    simp only [agentLoop]
    have hcont : ∀ (X : String) (ST : LoopState),
        ST.messages = (stepBump cfg st).messages ++ [⟨"assistant", r.content⟩] ++
          [(⟨"user", X⟩ : Msg)] →
        ∃ δ, (agentLoop cfg tpl env rest ST).messages = st.messages ++ δ ∧
          pairsMaybeUser (rolesOfL δ) = true := by
      intro X ST hST
      obtain ⟨δ', hδm, hδp⟩ := ih ST
      refine ⟨⟨"assistant", r.content⟩ :: ⟨"user", X⟩ :: δ', ?_, ?_⟩
      · rw [hδm, hST, stepBump_messages]
        simp [List.append_assoc]
      · simp only [rolesOfL, List.map_cons]
        rw [pairsMaybeUser_pair]
        simpa [rolesOfL] using hδp
    split
    · exact ⟨[⟨"user", ""⟩], by rw [stepBump_messages], by decide⟩
    · split
      · split
        · exact hcont _ _ rfl
        · split
          · next p hFin =>
            refine ⟨[⟨"assistant", r.content⟩, ⟨"user", p⟩], ?_, by rfl⟩
            rw [stepBump_messages]
            simp [List.append_assoc]
          · exact hcont _ _ rfl
          · exact hcont _ _ rfl
      · exact hcont _ _ rfl

/-- Concrete configuration and doubles for the protocol counterexample:
`step_limit = 1`, default variant. -/
def cfg8 : AgentCfg := ⟨1, 0, 0, false⟩

/-- Concrete rendered templates. -/
def tpl8 : Templates :=
  ⟨"FMT8", fun _ => "TMO8", fun o => String.append "Obs " o, fun _ _ _ => "EARLY8"⟩

/-- Concrete sandbox: every command prints `hello`. -/
def env8 : String → Option String := fun _ => some "hello"

/-- Counterexample to claim C8: a run that exhausts its step budget ends
with the limits-exceeded user turn appended directly after the previous
user turn, so the transcript `system, user, assistant, user, user` is
not strictly alternating after the prelude. -/
theorem claim8_counterexample :
    runAgent cfg8 tpl8 env8 "S" "I" [⟨"```bash\nls\n```", 0⟩] =
      ⟨[⟨"system", "S"⟩, ⟨"user", "I"⟩, ⟨"assistant", "```bash\nls\n```"⟩,
        ⟨"user", "Obs hello"⟩, ⟨"user", ""⟩], .limitsExceeded, ""⟩ ∧
    strictProtocol (runAgent cfg8 tpl8 env8 "S" "I"
        [⟨"```bash\nls\n```", 0⟩]).messages = false := by
  exact ⟨rfl, rfl⟩

/-- Claim C8 amended: every run's transcript is a system turn, the
instance user turn, then strictly alternating assistant/user pairs —
except that a run terminating with limits-exceeded appends one final
user turn, which may directly follow another user turn. -/
theorem claim8_transcript_order (cfg : AgentCfg) (tpl : Templates)
    (env : String → Option String) (sysMsg instMsg : String)
    (responses : List ScriptedResponse) :
    relaxedProtocol (runAgent cfg tpl env sysMsg instMsg responses).messages = true := by
  unfold runAgent
  obtain ⟨δ, hm, hp⟩ :=
    agentLoop_delta cfg tpl env responses
      ⟨[⟨"system", sysMsg⟩, ⟨"user", instMsg⟩], 0, 0, 0⟩
  rw [hm]
  simp only [rolesOfL] at hp
  simp [relaxedProtocol, rolesOfL, hp]
